import Mathlib

/-!
# Verification of the `clocker` timesheet core

Shallow embedding of `src/timeclock/timesheet.rs` and
`src/timeclock/clock.rs` (a personal time-tracking tool), together with
theorems settling the specification's claims about it.

Modelling conventions:

* `chrono::DateTime<Local>` is modelled by the pair of its civil date
  (`date_naive()`, encoded as a day number with day 0 = 1970-01-01, which
  is a Thursday; `chrono`'s `NaiveDate` order is chronological, i.e. the
  order of day numbers) and its absolute instant in nanoseconds
  (`signed_duration_since` subtracts instants; `chrono::TimeDelta` is an
  integer number of nanoseconds, modelled by `Int`, overflow being
  irrelevant to every property considered).
* `chrono`'s calendar queries (`weekday`, `with_day`, `with_month`,
  `checked_sub_days`) act on day numbers via the standard proleptic
  Gregorian civil-calendar conversions (`daysFromCivil` /
  `civilFromDays` below).
* `Local::now()` appears in the Rust functions as an ambient clock; it is
  passed explicitly as the `today` / `now` argument of the corresponding
  Lean functions, which is the only difference in signature.
* `VecDeque<Action>` with `push_back` / `back` is modelled as a `List`
  with append-at-end / `getLast?`.
* File-system persistence is modelled by `FileState`: the storage path
  either does not exist, exists with unparseable contents, or exists and
  parses to a `Timesheet` (serialization itself is lossless for this data
  type, so parseable contents are identified with their parse).
-/

namespace Clocker

/-- A civil (proleptic Gregorian) calendar date, as produced by
`civilFromDays`. -/
structure Civil where
  year : Int
  month : Int
  day : Int
deriving DecidableEq, Repr

/-- Day number of the civil date `y-m-d` (day 0 = 1970-01-01).
Standard civil-calendar conversion, written with floor
division (`Int./` with positive divisors). -/
def daysFromCivil (y m d : Int) : Int :=
  let y' := y - (if m ≤ 2 then 1 else 0)
  let era := y' / 400
  let yoe := y' - era * 400
  let mp := (m + 9) % 12
  let doy := (153 * mp + 2) / 5 + d - 1
  let doe := yoe * 365 + yoe / 4 - yoe / 100 + doy
  era * 146097 + doe - 719468

/-- Civil date of a day number (inverse of `daysFromCivil`). -/
def civilFromDays (g : Int) : Civil :=
  let z := g + 719468
  let era := z / 146097
  let doe := z - era * 146097
  let yoe := (doe - doe / 1460 + doe / 36524 - doe / 146096) / 365
  let y' := yoe + era * 400
  let doy := doe - (365 * yoe + yoe / 4 - yoe / 100)
  let mp := (5 * doy + 2) / 153
  let d := doy - (153 * mp + 2) / 5 + 1
  let m := if mp < 10 then mp + 3 else mp - 9
  { year := y' + (if m ≤ 2 then 1 else 0), month := m, day := d }

/-- `date.weekday().num_days_from_monday()` on a day number: day 0
(1970-01-01) is a Thursday, so Mondays are the day numbers `g` with
`(g + 3) % 7 = 0`. -/
def num_days_from_monday (g : Int) : Int := (g + 3) % 7

/-- `date.with_day(1)` on a day number: the first of `date`'s month. -/
def with_day1 (g : Int) : Int :=
  let c := civilFromDays g
  daysFromCivil c.year c.month 1

/-- `date.with_month(1).with_day(1)` on a day number: January 1 of
`date`'s year. -/
def with_month1_day1 (g : Int) : Int :=
  let c := civilFromDays g
  daysFromCivil c.year 1 1

/-- `chrono::DateTime<Local>`: its civil date (`date_naive()`, a day
number) and its absolute instant in nanoseconds. -/
structure DateTime where
  dateNaive : Int
  instant : Int
deriving DecidableEq, Repr

/-- `a.signed_duration_since(b)`: the `TimeDelta` (nanoseconds) from `b`
to `a`. -/
def DateTime.signed_duration_since (a b : DateTime) : Int :=
  a.instant - b.instant

/-- One hour of `TimeDelta`, in nanoseconds. -/
def nsPerHour : Int := 3600000000000

/-- `Action` (timesheet.rs): a clock in or out action. -/
inductive Action where
  | In (t : DateTime)
  | Out (t : DateTime)
deriving DecidableEq, Repr

/-- The timestamp carried by an action (both constructors carry one). -/
def Action.timestamp : Action → DateTime
  | .In t => t
  | .Out t => t

/-- `This` (timesheet.rs): the aggregation period of `total_time`. -/
inductive This where
  | Day
  | Week
  | Month
  | Year
deriving DecidableEq, Repr

/-- `Timesheet` (timesheet.rs): the ordered log of actions
(`VecDeque<Action>`, front to back). -/
structure Timesheet where
  clocks : List Action
deriving DecidableEq, Repr

/-- `Timesheet::default()`: the empty timesheet. -/
def Timesheet.default : Timesheet := { clocks := [] }

/-- `closest_prev_monday` (timesheet.rs, inside `total_time`'s `Week`
arm): `date.checked_sub_days(date.weekday().num_days_from_monday())`. -/
def closest_prev_monday (date : Int) : Int :=
  date - num_days_from_monday date

/-- The filtering of `self.clocks` performed at the top of
`Timesheet::total_time`, arm by arm:
`Day` keeps actions whose `date_naive` equals today's,
`Week` those on or after `closest_prev_monday(today)`,
`Month` those on or after `today.with_day(1)`,
`Year` those on or after `today.with_month(1).with_day(1)`;
in every arm the closure matches `In` and `Out` separately, exactly as
the source does. -/
def periodFilter (today : DateTime) (worked : This) (clocks : List Action) :
    List Action :=
  match worked with
  | .Day =>
      clocks.filter (fun action =>
        match action with
        | .In time => decide (time.dateNaive = today.dateNaive)
        | .Out time => decide (time.dateNaive = today.dateNaive))
  | .Week =>
      let monday := closest_prev_monday today.dateNaive
      clocks.filter (fun action =>
        match action with
        | .In time => decide (monday ≤ time.dateNaive)
        | .Out time => decide (monday ≤ time.dateNaive))
  | .Month =>
      let start_of_month := with_day1 today.dateNaive
      clocks.filter (fun action =>
        match action with
        | .In time => decide (start_of_month ≤ time.dateNaive)
        | .Out time => decide (start_of_month ≤ time.dateNaive))
  | .Year =>
      let start_of_year := with_month1_day1 today.dateNaive
      clocks.filter (fun action =>
        match action with
        | .In time => decide (start_of_year ≤ time.dateNaive)
        | .Out time => decide (start_of_year ≤ time.dateNaive))

/-- One iteration of the `for action in clocks` loop of
`Timesheet::total_time`: the state is `(total_time, last_clock_in)`.
`In` overwrites `last_clock_in`; `Out` with a pending in adds
`time.signed_duration_since(last_clock_in)` to the total — and leaves
`last_clock_in` set, since the source's `if let` does not reassign it. -/
def totalStep : Int × Option DateTime → Action → Int × Option DateTime
  | (total, _), .In time => (total, some time)
  | (total, lastIn), .Out time =>
      match lastIn with
      | some last_clock_in =>
          (total + time.signed_duration_since last_clock_in, some last_clock_in)
      | none => (total, none)

/-- `Timesheet::total_time` (timesheet.rs): filter by the period, then
run the pairing loop from `(zero, None)` and return the accumulated
total. `today` stands for the source's `Local::now()`. -/
def Timesheet.total_time (self : Timesheet) (today : DateTime)
    (worked : This) : Int :=
  ((periodFilter today worked self.clocks).foldl totalStep (0, none)).1

/-- `Timesheet::clock_in`: appends `In(when)`. -/
def Timesheet.clock_in (self : Timesheet) (whenAt : DateTime) : Timesheet :=
  { clocks := self.clocks ++ [Action.In whenAt] }

/-- `Timesheet::clock_out`: appends `Out(when)`. -/
def Timesheet.clock_out (self : Timesheet) (whenAt : DateTime) : Timesheet :=
  { clocks := self.clocks ++ [Action.Out whenAt] }

/-- `Timesheet::last_action`: the back of the deque. -/
def Timesheet.last_action (self : Timesheet) : Option Action :=
  self.clocks.getLast?

/-- The filtering at the top of `Timesheet::running_time`: keep the
actions whose `date_naive` is today's, matching `In` and `Out`
separately as the source does. -/
def todayFilter (now : DateTime) (clocks : List Action) : List Action :=
  clocks.filter (fun clock =>
    match clock with
    | .In time => decide (time.dateNaive = now.dateNaive)
    | .Out time => decide (time.dateNaive = now.dateNaive))

/-- One iteration of the `for action in clocks` loop of
`Timesheet::running_time`: like `totalStep`, except that a matched `Out`
resets `last_clock_in` to `None` (the source assigns
`last_clock_in = None` inside the `if let`). -/
def runningStep : Int × Option DateTime → Action → Int × Option DateTime
  | (total, _), .In time => (total, some time)
  | (total, lastIn), .Out time =>
      match lastIn with
      | some clock => (total + time.signed_duration_since clock, none)
      | none => (total, none)

/-- `Timesheet::running_time` (timesheet.rs): filter to today's actions,
run the pairing loop from `(zero, None)`; if a pending in remains, add
`now.signed_duration_since(last_clock_in)`. Both branches return
`Some`. `now` stands for the source's `Local::now()`. -/
def Timesheet.running_time (self : Timesheet) (now : DateTime) :
    Option Int :=
  let r := (todayFilter now self.clocks).foldl runningStep (0, none)
  match r.2 with
  | some last_clock_in =>
      some (r.1 + now.signed_duration_since last_clock_in)
  | none => some r.1

/-- The state of the storage file at `timesheet_path`: it does not
exist, it exists but `serde_json::from_str` fails on its contents, or it
exists and parses to a `Timesheet`. -/
inductive FileState where
  | absent
  | corrupt
  | stored (ts : Timesheet)
deriving DecidableEq, Repr

/-- The error kinds raised by the service layer (`anyhow` errors in
clock.rs): a parse failure in `get_timesheet`, or the two state
violations of `clock_in` / `clock_out`. -/
inductive TcError where
  | parseFailure
  | alreadyClockedIn
  | alreadyClockedOut
deriving DecidableEq, Repr

/-- `Timeclock::get_timesheet` (clock.rs): if the path exists, read and
parse (propagating a parse failure); otherwise return
`Timesheet::default()` (after printing a notice). -/
def Timeclock.get_timesheet (fs : FileState) : Except TcError Timesheet :=
  match fs with
  | .absent => .ok Timesheet.default
  | .corrupt => .error .parseFailure
  | .stored ts => .ok ts

/-- `Timeclock::save_timesheet` (clock.rs): serialize and rewrite the
whole file (serialization of this data type cannot fail). -/
def Timeclock.save_timesheet (ts : Timesheet) (_fs : FileState) : FileState :=
  .stored ts

/-- `Timeclock::clock_in` (clock.rs): load; bail with "You are already
clocked in" if the last action is an `In`; otherwise append `In(now)`
and save. The result pairs the `Result<()>` with the file state after
the call (unchanged when no save happens). -/
def Timeclock.clock_in (now : DateTime) (fs : FileState) :
    Except TcError Unit × FileState :=
  match Timeclock.get_timesheet fs with
  | .error e => (.error e, fs)
  | .ok timesheet =>
      match timesheet.last_action with
      | some (.In _) => (.error .alreadyClockedIn, fs)
      | _ =>
          (.ok (), Timeclock.save_timesheet (timesheet.clock_in now) fs)

/-- `Timeclock::clock_out` (clock.rs): load; bail with "You are already
clocked out" if the last action is an `Out`; otherwise append `Out(now)`
and save. -/
def Timeclock.clock_out (now : DateTime) (fs : FileState) :
    Except TcError Unit × FileState :=
  match Timeclock.get_timesheet fs with
  | .error e => (.error e, fs)
  | .ok timesheet =>
      match timesheet.last_action with
      | some (.Out _) => (.error .alreadyClockedOut, fs)
      | _ =>
          (.ok (), Timeclock.save_timesheet (timesheet.clock_out now) fs)

/-- `Timeclock::running_time` (clock.rs): load, compute
`timesheet.running_time().unwrap_or(TimeDelta::zero())`; we return the
duration that `print_hms` receives. -/
def Timeclock.running_time (now : DateTime) (fs : FileState) :
    Except TcError Int :=
  match Timeclock.get_timesheet fs with
  | .error e => .error e
  | .ok timesheet => .ok ((timesheet.running_time now).getD 0)

/-- `Timeclock::wipe` (clock.rs): the body is commented out; the
function touches nothing and returns `Ok(())`. -/
def Timeclock.wipe (fs : FileState) : Except TcError Unit × FileState :=
  (.ok (), fs)

/-! ## Spec-side definitions

These follow the specification's words, to be compared with the
embedding above. -/

/-- The pairing scan exactly as the spec words it: maintain "pending in"
= last seen unmatched `In`; on each `Out`, if a pending in exists, add
`(out - pending_in)` to the running total and CLEAR the pending in; an
`Out` with no pending in contributes nothing. Returns the total and the
pending in left at the end. -/
def specScanClear : Option DateTime → List Action → Int × Option DateTime
  | pending, [] => (0, pending)
  | _, .In t :: rest => specScanClear (some t) rest
  | some pending_in, .Out t :: rest =>
      let r := specScanClear none rest
      (t.instant - pending_in.instant + r.1, r.2)
  | none, .Out _ :: rest => specScanClear none rest

/-- The total computed by the spec's pairing scan. -/
def specPairClear (l : List Action) : Int := (specScanClear none l).1

/-- The pairing scan the source's `total_time` actually performs: as
`specScanClear`, except that a matched `Out` RETAINS the pending in, so
further consecutive `Out`s keep pairing against it. -/
def specScanRetain : Option DateTime → List Action → Int × Option DateTime
  | pending, [] => (0, pending)
  | _, .In t :: rest => specScanRetain (some t) rest
  | some pending_in, .Out t :: rest =>
      let r := specScanRetain (some pending_in) rest
      (t.instant - pending_in.instant + r.1, r.2)
  | none, .Out _ :: rest => specScanRetain none rest

/-- The total computed by the retaining pairing scan. -/
def specPairRetain (l : List Action) : Int := (specScanRetain none l).1

/-- A day number is a Monday iff it is ≡ 1970-01-05 (day 4) modulo 7,
i.e. `(g + 3) % 7 = 0`. -/
def isMonday (g : Int) : Prop := (g + 3) % 7 = 0

/-- The window predicate the spec describes for each period, applied to
an action's date: `Day` keeps dates equal to today's; `Week` keeps dates
on or after the most recent Monday on/before today; `Month` keeps dates
on or after the first of the current month; `Year` keeps dates on or
after January 1 of the current year. -/
def inWindow (today : DateTime) (worked : This) (d : Int) : Prop :=
  match worked with
  | .Day => d = today.dateNaive
  | .Week => closest_prev_monday today.dateNaive ≤ d
  | .Month => with_day1 today.dateNaive ≤ d
  | .Year => with_month1_day1 today.dateNaive ≤ d

instance (today : DateTime) (worked : This) (d : Int) :
    Decidable (inWindow today worked d) := by
  unfold inWindow
  cases worked <;> infer_instance

/-- The running-time computation as the spec words it: keep today's
actions, run the (clearing) pairing scan, and if a pending in remains at
the end add `(now - pending_in)`. -/
def specRunning (now : DateTime) (clocks : List Action) : Int :=
  let todays :=
    clocks.filter (fun a => decide (a.timestamp.dateNaive = now.dateNaive))
  let r := specScanClear none todays
  r.1 + (match r.2 with
         | some pending_in => now.instant - pending_in.instant
         | none => 0)

/-- The last action recorded in the persisted storage: the last action
of the stored timesheet, none when the file is absent or unreadable. -/
def persistedLast (fs : FileState) : Option Action :=
  match fs with
  | .stored ts => ts.last_action
  | _ => none

/-! ## Helper lemmas -/

/-- The imperative loop of `total_time`, started in any state, computes
the retaining scan: the accumulated total grows by the scan's total and
the final pending in is the scan's. -/
lemma foldl_totalStep (l : List Action) :
    ∀ (acc : Int) (p : Option DateTime),
      l.foldl totalStep (acc, p)
        = (acc + (specScanRetain p l).1, (specScanRetain p l).2) := by
  induction l with
  | nil => intro acc p; simp [specScanRetain]
  | cons a rest ih =>
      intro acc p
      cases a with
      | In t =>
          simp [List.foldl_cons, totalStep, specScanRetain, ih]
      | Out t =>
          cases p with
          | none => simp [List.foldl_cons, totalStep, specScanRetain, ih]
          | some tin =>
              simp [List.foldl_cons, totalStep, specScanRetain, ih,
                DateTime.signed_duration_since, add_assoc]

/-- The imperative loop of `running_time`, started in any state,
computes the clearing scan. -/
lemma foldl_runningStep (l : List Action) :
    ∀ (acc : Int) (p : Option DateTime),
      l.foldl runningStep (acc, p)
        = (acc + (specScanClear p l).1, (specScanClear p l).2) := by
  induction l with
  | nil => intro acc p; simp [specScanClear]
  | cons a rest ih =>
      intro acc p
      cases a with
      | In t =>
          simp [List.foldl_cons, runningStep, specScanClear, ih]
      | Out t =>
          cases p with
          | none => simp [List.foldl_cons, runningStep, specScanClear, ih]
          | some tin =>
              simp [List.foldl_cons, runningStep, specScanClear, ih,
                DateTime.signed_duration_since, add_assoc]

/-- The source's period filter is the filter by the spec's window
predicate on the action's timestamp. -/
lemma periodFilter_eq_filter (today : DateTime) (worked : This)
    (l : List Action) :
    periodFilter today worked l
      = l.filter (fun a => decide (inWindow today worked a.timestamp.dateNaive)) := by
  cases worked <;>
    · simp only [periodFilter, inWindow]
      congr 1
      funext a
      cases a <;> simp [Action.timestamp]

/-- The source's today filter is the filter by date-equals-today on the
action's timestamp. -/
lemma todayFilter_eq_filter (now : DateTime) (l : List Action) :
    todayFilter now l
      = l.filter (fun a => decide (a.timestamp.dateNaive = now.dateNaive)) := by
  simp only [todayFilter]
  congr 1
  funext a
  cases a <;> simp [Action.timestamp]

/-- `closest_prev_monday` is a Monday, is on or before its argument, and
is the greatest such Monday. -/
lemma closest_prev_monday_spec (g : Int) :
    isMonday (closest_prev_monday g) ∧ closest_prev_monday g ≤ g ∧
      ∀ m', isMonday m' → m' ≤ g → m' ≤ closest_prev_monday g := by
  unfold isMonday closest_prev_monday num_days_from_monday
  refine ⟨by omega, by omega, ?_⟩
  intro m' h1 h2
  omega

/-- Two consecutive `In` steps collapse to the second, for the
`total_time` loop. -/
lemma totalStep_in_in (s : Int × Option DateTime) (t1 t2 : DateTime) :
    totalStep (totalStep s (.In t1)) (.In t2) = totalStep s (.In t2) := by
  rcases s with ⟨a, p⟩
  rfl

/-- Two consecutive `In` steps collapse to the second, for the
`running_time` loop. -/
lemma runningStep_in_in (s : Int × Option DateTime) (t1 t2 : DateTime) :
    runningStep (runningStep s (.In t1)) (.In t2) = runningStep s (.In t2) := by
  rcases s with ⟨a, p⟩
  rfl

/-! ## Claims -/

/-- C1 (counterexample): the claim says `total_time` clears the pending
in after pairing it with an `Out`, so a second consecutive `Out` adds
nothing. On `[In 0, Out 10, Out 20]` (all on today's date) the source
returns 30 — the second `Out` paired against the still-pending `In`
again — while the claimed clearing scan returns 10. -/
theorem C1_counterexample :
    Timesheet.total_time ⟨[.In ⟨0, 0⟩, .Out ⟨0, 10⟩, .Out ⟨0, 20⟩]⟩ ⟨0, 0⟩
        This.Day = 30 ∧
    specPairClear
        (periodFilter ⟨0, 0⟩ This.Day
          [.In ⟨0, 0⟩, .Out ⟨0, 10⟩, .Out ⟨0, 20⟩]) = 10 ∧
    (30 : Int) ≠ 10 := by
  decide

/-- C1 (amended): for every timesheet and period, `total_time` scans the
filtered in-order subsequence maintaining a pending unmatched `In`; each
`Out` with a pending in adds `(out - pending_in)` but RETAINS the
pending in (so a second consecutive `Out` after a paired `In` adds its
own difference against the same `In`); an `Out` with no pending in
contributes nothing. -/
theorem C1_total_time_pairing (ts : Timesheet) (today : DateTime)
    (worked : This) :
    ts.total_time today worked
      = specPairRetain (periodFilter today worked ts.clocks) := by
  unfold Timesheet.total_time specPairRetain
  rw [foldl_totalStep]
  simp

/-- C2 (counterexample): the claim says clocking out on an empty
timesheet is rejected and no file is created. The source only bails
when the last action is `Some(Out(_))`; with an absent file the loaded
timesheet is empty, the guard does not fire, and `Out(now)` is appended
and persisted — the call succeeds and the file is created. -/
theorem C2_counterexample :
    (Timeclock.clock_out ⟨0, 0⟩ .absent).1 = .ok () ∧
    (Timeclock.clock_out ⟨0, 0⟩ .absent).2 = .stored ⟨[.Out ⟨0, 0⟩]⟩ ∧
    (Timeclock.clock_out ⟨0, 0⟩ .absent).2 ≠ .absent := by
  refine ⟨rfl, rfl, ?_⟩
  decide

/-- C2 (amended): `clock_out` fails with the "already clocked out" error
exactly when the loaded timesheet's last action is an `Out`; when the
log is empty (no last action) or the last action is an `In`, it appends
`Out(now)` and persists — in particular clocking out on a nonexistent
file succeeds and creates the file holding the single action
`Out(now)`. -/
theorem C2_clock_out_behavior (now : DateTime) (ts : Timesheet) :
    ((∃ t, ts.last_action = some (.Out t)) →
      Timeclock.clock_out now (.stored ts)
        = (.error .alreadyClockedOut, .stored ts)) ∧
    ((∀ t, ts.last_action ≠ some (.Out t)) →
      Timeclock.clock_out now (.stored ts)
        = (.ok (), .stored (ts.clock_out now))) ∧
    Timeclock.clock_out now .absent
      = (.ok (), .stored (Timesheet.default.clock_out now)) := by
  refine ⟨?_, ?_, rfl⟩
  · rintro ⟨t, h⟩
    simp [Timeclock.clock_out, Timeclock.get_timesheet, h]
  · intro h
    cases hl : ts.last_action with
    | none =>
        simp [Timeclock.clock_out, Timeclock.get_timesheet, hl,
          Timeclock.save_timesheet]
    | some a =>
        cases a with
        | In t =>
            simp [Timeclock.clock_out, Timeclock.get_timesheet, hl,
              Timeclock.save_timesheet]
        | Out t => exact absurd hl (h t)

/-- C2 (witness): on a log ending in `Out` the call is rejected with the
state unchanged; on a log ending in `In` it appends `Out(now)`. -/
theorem C2_clock_out_behavior_witness :
    Timeclock.clock_out ⟨0, 5⟩ (.stored ⟨[.Out ⟨0, 1⟩]⟩)
        = (.error .alreadyClockedOut, .stored ⟨[.Out ⟨0, 1⟩]⟩) ∧
    Timeclock.clock_out ⟨0, 5⟩ (.stored ⟨[.In ⟨0, 1⟩]⟩)
        = (.ok (), .stored ⟨[.In ⟨0, 1⟩, .Out ⟨0, 5⟩]⟩) := by
  constructor
  · exact (C2_clock_out_behavior ⟨0, 5⟩ ⟨[.Out ⟨0, 1⟩]⟩).1 ⟨⟨0, 1⟩, rfl⟩
  · exact (C2_clock_out_behavior ⟨0, 5⟩ ⟨[.In ⟨0, 1⟩]⟩).2.1
      (by intro t h; simp [Timesheet.last_action] at h)

/-- C3: a clock-in when the last persisted action is an `In`, and a
clock-out when the last persisted action is an `Out`, are rejected with
the corresponding state-violation error and leave the file state exactly
as it was (no append, no save). -/
theorem C3_reject_preserves_state (now : DateTime) (fs : FileState)
    (t : DateTime) :
    (persistedLast fs = some (.In t) →
      Timeclock.clock_in now fs = (.error .alreadyClockedIn, fs)) ∧
    (persistedLast fs = some (.Out t) →
      Timeclock.clock_out now fs = (.error .alreadyClockedOut, fs)) := by
  constructor
  · intro h
    cases fs with
    | absent => simp [persistedLast] at h
    | corrupt => simp [persistedLast] at h
    | stored ts =>
        simp only [persistedLast] at h
        simp [Timeclock.clock_in, Timeclock.get_timesheet, h]
  · intro h
    cases fs with
    | absent => simp [persistedLast] at h
    | corrupt => simp [persistedLast] at h
    | stored ts =>
        simp only [persistedLast] at h
        simp [Timeclock.clock_out, Timeclock.get_timesheet, h]

/-- C3 (witness): with a stored log ending in `In ⟨0,1⟩`, `clock_in` is
rejected and the file unchanged; with one ending in `Out ⟨0,1⟩`,
`clock_out` is rejected and the file unchanged. -/
theorem C3_reject_preserves_state_witness :
    Timeclock.clock_in ⟨0, 5⟩ (.stored ⟨[.In ⟨0, 1⟩]⟩)
        = (.error .alreadyClockedIn, .stored ⟨[.In ⟨0, 1⟩]⟩) ∧
    Timeclock.clock_out ⟨0, 5⟩ (.stored ⟨[.Out ⟨0, 1⟩]⟩)
        = (.error .alreadyClockedOut, .stored ⟨[.Out ⟨0, 1⟩]⟩) := by
  constructor
  · exact (C3_reject_preserves_state ⟨0, 5⟩ (.stored ⟨[.In ⟨0, 1⟩]⟩)
      ⟨0, 1⟩).1 rfl
  · exact (C3_reject_preserves_state ⟨0, 5⟩ (.stored ⟨[.Out ⟨0, 1⟩]⟩)
      ⟨0, 1⟩).2 rfl

/-- C7: loading from an absent storage path yields the empty timesheet
without error; loading unparseable contents fails with the parse error,
and every operation built on the load propagates that failure without
touching the file. -/
theorem C7_load_policy (now : DateTime) :
    Timeclock.get_timesheet .absent = .ok Timesheet.default ∧
    Timesheet.default.clocks = [] ∧
    Timeclock.get_timesheet .corrupt = .error .parseFailure ∧
    Timeclock.clock_in now .corrupt = (.error .parseFailure, .corrupt) ∧
    Timeclock.clock_out now .corrupt = (.error .parseFailure, .corrupt) ∧
    Timeclock.running_time now .corrupt = .error .parseFailure :=
  ⟨rfl, rfl, rfl, rfl, rfl, rfl⟩

/-- C9: `wipe` returns success and leaves the file state exactly as it
was, for every file state. -/
theorem C9_wipe_is_noop (fs : FileState) :
    Timeclock.wipe fs = (.ok (), fs) :=
  rfl

/-- C10: `Timesheet::running_time` always returns `Some`, so the
service-level `unwrap_or(zero)` fallback never fires: the duration the
service reports is exactly the one inside the `Some`. -/
theorem C10_running_time_always_some (ts : Timesheet) (now : DateTime) :
    ∃ d : Int, ts.running_time now = some d ∧
      Timeclock.running_time now (.stored ts) = .ok d := by
  rcases hr : (todayFilter now ts.clocks).foldl runningStep (0, none)
    with ⟨total, p⟩
  cases p <;>
    simp [Timesheet.running_time, Timeclock.running_time,
      Timeclock.get_timesheet, hr]

/-- C4 (counterexample): the claim says `running_time` applies the same
In/Out pairing as `total_time`. On today's actions
`[In 0, Out 10, Out 20]` with `now = 100`, `total_time`'s pairing yields
30 (its pending in is retained, so the second `Out` pairs again), while
`running_time` yields 10 (it clears the pending in); 10 is neither 30
(reading the trailing term as zero, the pending having been matched) nor
30 + (100 - 0) (reading `total_time`'s retained pending in as a trailing
unmatched `In`). -/
theorem C4_counterexample :
    Timesheet.running_time ⟨[.In ⟨0, 0⟩, .Out ⟨0, 10⟩, .Out ⟨0, 20⟩]⟩
        ⟨0, 100⟩ = some 10 ∧
    Timesheet.total_time ⟨[.In ⟨0, 0⟩, .Out ⟨0, 10⟩, .Out ⟨0, 20⟩]⟩
        ⟨0, 100⟩ This.Day = 30 ∧
    (10 : Int) ≠ 30 ∧ (10 : Int) ≠ 30 + (100 - 0) := by
  decide

/-- C4 (amended): `running_time` considers only actions whose date is
the current calendar date, applies the pairing that CLEARS the pending
in after each matched `Out` (which differs from `total_time`'s
implemented pairing), then adds `(now - pending_in)` if a trailing
unmatched `In` remains; it always returns `Some`, and returns zero when
no action is dated today. -/
theorem C4_running_time_spec (ts : Timesheet) (now : DateTime) :
    ts.running_time now = some (specRunning now ts.clocks) ∧
    ((∀ a ∈ ts.clocks, a.timestamp.dateNaive ≠ now.dateNaive) →
      ts.running_time now = some 0) := by
  have hmain : ts.running_time now = some (specRunning now ts.clocks) := by
    unfold Timesheet.running_time specRunning
    rw [todayFilter_eq_filter, foldl_runningStep]
    rcases hs : specScanClear none
        (ts.clocks.filter
          (fun a => decide (a.timestamp.dateNaive = now.dateNaive)))
      with ⟨total, p⟩
    cases p <;> simp [hs, DateTime.signed_duration_since, add_assoc]
  refine ⟨hmain, ?_⟩
  intro h
  rw [hmain]
  have hnil :
      ts.clocks.filter
          (fun a => decide (a.timestamp.dateNaive = now.dateNaive)) = [] := by
    rw [List.filter_eq_nil_iff]
    intro a ha
    simpa using h a ha
  simp [specRunning, hnil, specScanClear]

/-- C4 (witness): a timesheet whose only action is dated on day 1, with
`now` on day 0, has no action today and a running time of zero. -/
theorem C4_running_time_spec_witness :
    Timesheet.running_time ⟨[.In ⟨1, 0⟩]⟩ ⟨0, 50⟩ = some 0 :=
  (C4_running_time_spec ⟨[.In ⟨1, 0⟩]⟩ ⟨0, 50⟩).2 (by decide)

/-- C5: over the two-action timesheet `[In t1, Out t2]` with both dates
in the period window and `t2 - t1` equal to eight hours, `total_time`
is exactly eight hours; and appending a trailing `In` to any timesheet
never changes `total_time` (an open session is excluded), so a lone
clock-in yields a zero total. -/
theorem C5_eight_hours_and_trailing_in :
    (∀ (now : DateTime) (worked : This) (t1 t2 : DateTime),
      inWindow now worked t1.dateNaive → inWindow now worked t2.dateNaive →
      t2.instant - t1.instant = 8 * nsPerHour →
      Timesheet.total_time ⟨[.In t1, .Out t2]⟩ now worked = 8 * nsPerHour) ∧
    (∀ (ts : Timesheet) (now : DateTime) (worked : This) (t : DateTime),
      Timesheet.total_time ⟨ts.clocks ++ [.In t]⟩ now worked
        = ts.total_time now worked) := by
  constructor
  · intro now worked t1 t2 h1 h2 h8
    unfold Timesheet.total_time
    rw [periodFilter_eq_filter]
    simp only [List.filter_cons, List.filter_nil, Action.timestamp, h1, h2,
      decide_true_eq_true, if_true]
    simp [List.foldl_cons, totalStep, DateTime.signed_duration_since, h8]
  · intro ts now worked t
    unfold Timesheet.total_time
    rw [periodFilter_eq_filter, periodFilter_eq_filter, List.filter_append]
    by_cases h : inWindow now worked t.dateNaive
    · simp only [List.filter_cons, List.filter_nil, Action.timestamp, h,
        decide_true_eq_true, if_true, List.foldl_append]
      rcases List.foldl totalStep (0, none)
          (ts.clocks.filter
            (fun a => decide (inWindow now worked a.timestamp.dateNaive)))
        with ⟨a, p⟩
      simp [totalStep]
    · simp [List.filter_cons, Action.timestamp, h]

/-- C5 (witness): `In` at instant 0 and `Out` eight hours later, both on
today's date, total exactly eight hours under the `Day` period. -/
theorem C5_eight_hours_and_trailing_in_witness :
    Timesheet.total_time ⟨[.In ⟨0, 0⟩, .Out ⟨0, 8 * nsPerHour⟩]⟩ ⟨0, 0⟩
        This.Day = 8 * nsPerHour :=
  C5_eight_hours_and_trailing_in.1 ⟨0, 0⟩ This.Day ⟨0, 0⟩
    ⟨0, 8 * nsPerHour⟩ (by decide) (by decide) (by decide)

/-- C6: the period filter of `total_time` keeps, uniformly for `In` and
`Out` actions, exactly those whose date lies in the period window: equal
to today's date for `Day`; on or after the most recent Monday on/before
today for `Week` (witnessed by a day that is a Monday, is ≤ today, and
dominates every Monday ≤ today); on or after the first of the current
month for `Month`; on or after January 1 of the current year for
`Year`. -/
theorem C6_period_windows (today : DateTime) (l : List Action) :
    (periodFilter today This.Day l
      = l.filter (fun a => decide (a.timestamp.dateNaive = today.dateNaive))) ∧
    (∃ m, isMonday m ∧ m ≤ today.dateNaive ∧
      (∀ m', isMonday m' → m' ≤ today.dateNaive → m' ≤ m) ∧
      periodFilter today This.Week l
        = l.filter (fun a => decide (m ≤ a.timestamp.dateNaive))) ∧
    (periodFilter today This.Month l
      = l.filter (fun a =>
          decide (with_day1 today.dateNaive ≤ a.timestamp.dateNaive))) ∧
    (periodFilter today This.Year l
      = l.filter (fun a =>
          decide (with_month1_day1 today.dateNaive ≤ a.timestamp.dateNaive))) := by
  obtain ⟨hm1, hm2, hm3⟩ := closest_prev_monday_spec today.dateNaive
  refine ⟨?_, ⟨closest_prev_monday today.dateNaive, hm1, hm2, hm3, ?_⟩,
    ?_, ?_⟩ <;>
    · simp only [periodFilter]
      congr 1
      funext a
      cases a <;> rfl

/-- C8: in both `total_time` and `running_time`, two `In` actions in a
row (both inside the relevant window) make only the second one pending:
replacing the pair by the second `In` alone leaves the computed total
unchanged, so the earlier unmatched `In` contributes nothing. -/
theorem C8_consecutive_ins (now : DateTime) (worked : This)
    (pre post : List Action) (t1 t2 : DateTime) :
    (inWindow now worked t1.dateNaive → inWindow now worked t2.dateNaive →
      Timesheet.total_time ⟨pre ++ .In t1 :: .In t2 :: post⟩ now worked
        = Timesheet.total_time ⟨pre ++ .In t2 :: post⟩ now worked) ∧
    (t1.dateNaive = now.dateNaive → t2.dateNaive = now.dateNaive →
      Timesheet.running_time ⟨pre ++ .In t1 :: .In t2 :: post⟩ now
        = Timesheet.running_time ⟨pre ++ .In t2 :: post⟩ now) := by
  constructor
  · intro h1 h2
    unfold Timesheet.total_time
    rw [periodFilter_eq_filter, periodFilter_eq_filter, List.filter_append,
      List.filter_append, List.foldl_append, List.foldl_append]
    simp only [List.filter_cons, Action.timestamp, h1, h2,
      decide_true_eq_true, if_true, List.foldl_cons, totalStep_in_in]
  · intro h1 h2
    unfold Timesheet.running_time
    rw [todayFilter_eq_filter, todayFilter_eq_filter, List.filter_append,
      List.filter_append, List.foldl_append, List.foldl_append]
    simp only [List.filter_cons, Action.timestamp, h1, h2,
      decide_true_eq_true, if_true, List.foldl_cons, runningStep_in_in]

/-- C8 (witness): on today's date, `[In 0, In 5, Out 20]` totals the
same as `[In 5, Out 20]` for both functions — the first `In` is
discarded. -/
theorem C8_consecutive_ins_witness :
    Timesheet.total_time ⟨[.In ⟨0, 0⟩, .In ⟨0, 5⟩, .Out ⟨0, 20⟩]⟩ ⟨0, 30⟩
        This.Day
      = Timesheet.total_time ⟨[.In ⟨0, 5⟩, .Out ⟨0, 20⟩]⟩ ⟨0, 30⟩ This.Day ∧
    Timesheet.running_time ⟨[.In ⟨0, 0⟩, .In ⟨0, 5⟩, .Out ⟨0, 20⟩]⟩ ⟨0, 30⟩
      = Timesheet.running_time ⟨[.In ⟨0, 5⟩, .Out ⟨0, 20⟩]⟩ ⟨0, 30⟩ := by
  have h := C8_consecutive_ins ⟨0, 30⟩ This.Day [] [.Out ⟨0, 20⟩]
    ⟨0, 0⟩ ⟨0, 5⟩
  exact ⟨h.1 (by decide) (by decide), h.2 (by decide) (by decide)⟩

end Clocker
